import Mathlib

/-!
Verification of the terrain-map-fetcher canvas compositing engine.

The definitions below are a shallow embedding of the two Python entry
points of the repository:

* `compose_canvas.py` — the Placement Compositor: patch loading with
  per-patch skip/fatal error policy, the Resolution Governor, and the
  per-patch alpha-compositing loop over the canvas accumulators.
* `combine_tiles.py` — the Grid Tiler: the grid layout solver
  `_compute_grid`, the blank-tile padding, and the seam blender
  `_blend_seams`.

Real-valued pixel data (Python floats) is modelled with `ℚ`; pixel
coordinates with `ℤ` (placement compositor, offsets may be negative) or
`ℕ` (grid tiler).  Buffers are total functions from coordinates to
values; the source only ever reads them inside the bounds it computes.
-/

namespace TerrainMapFetcher

/-- Python's built-in `round` (round-half-to-even, i.e. banker's
rounding) on an exact rational, returning an integer as `int(round(x))`
does in the source. -/
def pyRound (q : ℚ) : ℤ :=
  if q - (⌊q⌋ : ℚ) < 1 / 2 then ⌊q⌋
  else if 1 / 2 < q - (⌊q⌋ : ℚ) then ⌊q⌋ + 1
  else if ⌊q⌋ % 2 = 0 then ⌊q⌋ else ⌊q⌋ + 1

/-- `np.clip(v, 0, 1)` on a single entry. -/
def clip01 (v : ℚ) : ℚ := min 1 (max 0 v)

/-- `range(s, s+k)` as a list of naturals, matching Python's `range`
used by the loops of `combine_tiles.py`. -/
def rangeList (s k : ℕ) : List ℕ :=
  match k with
  | 0 => []
  | k + 1 => s :: rangeList (s + 1) k

/-! ## Resolution Governor (`compose_canvas.py`, lines 75 and 215-219)

`max_res = max(64, args.max_resolution)`;
`long_side = max(canvas_w, canvas_h)`;
`out_scale = min(1.0, max_res / long_side)`;
`out_w/h = max(1, int(round(canvas_w/h * out_scale)))`. -/

/-- The uniform output scale of the Resolution Governor. -/
def out_scale (canvas_w canvas_h max_resolution : ℕ) : ℚ :=
  min 1 (((max 64 max_resolution : ℕ) : ℚ) / ((max canvas_w canvas_h : ℕ) : ℚ))

/-- The output dimensions `(out_w, out_h)` of the Resolution Governor. -/
def out_dims (canvas_w canvas_h max_resolution : ℕ) : ℤ × ℤ :=
  (max 1 (pyRound ((canvas_w : ℚ) * out_scale canvas_w canvas_h max_resolution)),
   max 1 (pyRound ((canvas_h : ℚ) * out_scale canvas_w canvas_h max_resolution)))

/-! ## Grid Layout Solver (`combine_tiles.py`, `_compute_grid`, lines 186-202) -/

/-- The `--layout` choices of `combine_tiles.py`. -/
inductive Layout where
  | auto
  | horizontal
  | vertical
  | grid
deriving DecidableEq

/-- `math.ceil(n / cols)` for naturals, as the row count of the grid
layout solver. -/
def ceilDivTiles (n cols : ℕ) : ℕ := (n + cols - 1) / cols

/-- `abs(cols - rows)` where `rows = ceil(n / cols)`: the squareness
defect of a candidate column count. -/
def gridDiff (n cols : ℕ) : ℕ :=
  ((cols : ℤ) - (ceilDivTiles n cols : ℤ)).natAbs

/-- One iteration of the `for cols in range(1, n + 1)` loop of
`_compute_grid`: the accumulator is `(best_cols, best_rows, best_diff)`
and is replaced only on strict improvement. -/
def gridStep (n : ℕ) (acc : ℕ × ℕ × ℕ) (cols : ℕ) : ℕ × ℕ × ℕ :=
  if gridDiff n cols < acc.2.2 then (cols, ceilDivTiles n cols, gridDiff n cols) else acc

/-- The initial accumulator `best_cols, best_rows = n, 1` with
`best_diff = abs(n - 1)`. -/
def gridInit (n : ℕ) : ℕ × ℕ × ℕ := (n, 1, ((n : ℤ) - 1).natAbs)

/-- The full scan of the auto layout branch. -/
def autoGridFold (n : ℕ) : ℕ × ℕ × ℕ :=
  (rangeList 1 n).foldl (gridStep n) (gridInit n)

/-- `_compute_grid(n, layout)`: `(cols, rows)` for placing `n` tiles.
`horizontal` gives `(n, 1)`, `vertical` gives `(1, n)`, and `auto` or
`grid` scan for the most square arrangement. -/
def _compute_grid (n : ℕ) (layout : Layout) : ℕ × ℕ :=
  match layout with
  | .horizontal => (n, 1)
  | .vertical => (1, n)
  | _ => ((autoGridFold n).1, (autoGridFold n).2.1)

/-- The blank-tile padding of `combine_tiles.py` lines 93-96: append
zero tiles until the list fills `cells = cols * rows` grid cells. -/
def padTiles {α : Type} (tiles : List α) (blank : α) (cells : ℕ) : List α :=
  tiles ++ List.replicate (cells - tiles.length) blank

/-! ## Placement Compositor (`compose_canvas.py`, lines 226-276) -/

/-- The canvas accumulators `out_hm`, `out_alpha`, `out_img`
(lines 226-228), all zero-initialized.  Buffers are modelled as total
functions on output pixel coordinates; the source only reads them
inside `[0, out_h) × [0, out_w)`. -/
structure Canvas where
  hm : ℤ → ℤ → ℚ
  alpha : ℤ → ℤ → ℚ
  img : ℤ → ℤ → Fin 3 → ℚ

/-- `np.zeros` initialization of the three accumulators. -/
def initCanvas : Canvas :=
  { hm := fun _ _ => 0, alpha := fun _ _ => 0, img := fun _ _ _ => 0 }

/-- One patch at composite time: output-space placement `ox0, oy0`
(`int(round((cx - min_cx) * out_scale))`), resampled size `pw, ph`, and
the buffers `hm_rs`, `mask_rs`, `img_rs` already resampled to `pw × ph`
(the resampling filters are external to this embedding; the claims
quantify over the resampled values). -/
structure RPatch where
  ox0 : ℤ
  oy0 : ℤ
  pw : ℤ
  ph : ℤ
  hm : ℤ → ℤ → ℚ
  mask : ℤ → ℤ → ℚ
  img : Option (ℤ → ℤ → Fin 3 → ℚ)

/-- One iteration of the compositing loop (lines 230-276): clip the
patch rectangle `[ox0, ox0+pw) × [oy0, oy0+ph)` against the output
canvas, skip when the intersection is empty, and over the clipped
sub-region blend heightmap, alpha and (when present) imagery.
`px0 = max(0, ox0)`, `px1 = min(out_w, ox0 + pw)` and likewise for y;
a clipped pixel `(y, x)` reads the resampled buffers at
`(y - oy0, x - ox0)`.  `denom = np.where(old + new == 0, 1e-6, old + new)`.

Aliasing in the source: `old_alpha` (line 260) is a numpy VIEW into
`out_alpha`, and line 267 writes `clip(old_alpha + new_alpha, 0, 1)`
back into that region before the imagery blend of lines 270-276 runs.
The heightmap blend (lines 265-266) therefore reads the pre-update
alpha, while the imagery blend weights the existing `out_img` by the
freshly clipped alpha `clip01 (old + new)`; the fresh `denom` array
keeps the pre-update sum in both blends. -/
def applyPatch (out_w out_h : ℤ) (c : Canvas) (p : RPatch) : Canvas :=
  if min out_w (p.ox0 + p.pw) ≤ max 0 p.ox0 ∨ min out_h (p.oy0 + p.ph) ≤ max 0 p.oy0 then c
  else
    { hm := fun y x =>
        if max 0 p.oy0 ≤ y ∧ y < min out_h (p.oy0 + p.ph) ∧
            max 0 p.ox0 ≤ x ∧ x < min out_w (p.ox0 + p.pw) then
          (p.hm (y - p.oy0) (x - p.ox0) * p.mask (y - p.oy0) (x - p.ox0) +
              c.hm y x * c.alpha y x) /
            (if c.alpha y x + p.mask (y - p.oy0) (x - p.ox0) = 0 then 1 / 1000000
             else c.alpha y x + p.mask (y - p.oy0) (x - p.ox0))
        else c.hm y x
      alpha := fun y x =>
        if max 0 p.oy0 ≤ y ∧ y < min out_h (p.oy0 + p.ph) ∧
            max 0 p.ox0 ≤ x ∧ x < min out_w (p.ox0 + p.pw) then
          clip01 (c.alpha y x + p.mask (y - p.oy0) (x - p.ox0))
        else c.alpha y x
      img := fun y x ch =>
        match p.img with
        | none => c.img y x ch
        | some im =>
          if max 0 p.oy0 ≤ y ∧ y < min out_h (p.oy0 + p.ph) ∧
              max 0 p.ox0 ≤ x ∧ x < min out_w (p.ox0 + p.pw) then
            (im (y - p.oy0) (x - p.ox0) ch * p.mask (y - p.oy0) (x - p.ox0) +
                c.img y x ch * clip01 (c.alpha y x + p.mask (y - p.oy0) (x - p.ox0))) /
              (if c.alpha y x + p.mask (y - p.oy0) (x - p.ox0) = 0 then 1 / 1000000
               else c.alpha y x + p.mask (y - p.oy0) (x - p.ox0))
          else c.img y x ch }

/-- The full compositing loop `for patch in loaded:` in input order. -/
def composite (out_w out_h : ℤ) (ps : List RPatch) : Canvas :=
  ps.foldl (applyPatch out_w out_h) initCanvas

/-- A 1×1 fully-opaque patch with elevation 3 and color 9, placed at
the output origin; used to instantiate theorems with hypotheses. -/
def wpatchA : RPatch :=
  { ox0 := 0, oy0 := 0, pw := 1, ph := 1,
    hm := fun _ _ => 3, mask := fun _ _ => 1, img := some (fun _ _ _ => 9) }

/-- A second 1×1 fully-opaque patch with elevation 5 and color 11 over
the same region as `wpatchA`. -/
def wpatchB : RPatch :=
  { ox0 := 0, oy0 := 0, pw := 1, ph := 1,
    hm := fun _ _ => 5, mask := fun _ _ => 1, img := some (fun _ _ _ => 11) }

/-- A 1×1 half-opacity patch (mask 0.5) with color 8, used to exhibit
the view-aliasing of the imagery blend. -/
def wpatchC : RPatch :=
  { ox0 := 0, oy0 := 0, pw := 1, ph := 1,
    hm := fun _ _ => 0, mask := fun _ _ => 1 / 2, img := some (fun _ _ _ => 8) }

/-- A second 1×1 half-opacity patch (mask 0.5) with color 16 over the
same region as `wpatchC`. -/
def wpatchD : RPatch :=
  { ox0 := 0, oy0 := 0, pw := 1, ph := 1,
    hm := fun _ _ => 0, mask := fun _ _ => 1 / 2, img := some (fun _ _ _ => 16) }


/-! ## Seam blending (`combine_tiles.py`, `_blend_seams`, lines 217-248)

The Python function copies the canvas (`out = canvas.copy()`), writes
whole columns `out[:, px]` / whole rows `out[py, :]` inside each seam
band, and always reads the ORIGINAL `canvas`.  The state carries both
buffers: `src` is the read-only original, `dst` the output copy. -/

/-- `out[:, px] = v` — assign a whole column. -/
def writeCol (g : ℕ → ℕ → ℚ) (px : ℕ) (v : ℕ → ℚ) : ℕ → ℕ → ℚ :=
  fun y x => if x = px then v y else g y x

/-- `out[py, :] = v` — assign a whole row. -/
def writeRow (g : ℕ → ℕ → ℚ) (py : ℕ) (v : ℕ → ℚ) : ℕ → ℕ → ℚ :=
  fun y x => if y = py then v x else g y x

/-- `alpha = (p - left) / max(1, right - left)` — the cross-fade
position of pixel `p` inside the band `[left, right]`. -/
def bandAlpha (left right p : ℕ) : ℚ :=
  ((p - left : ℕ) : ℚ) / ((max 1 (right - left) : ℕ) : ℚ)

/-- The inner loop `for px in range(left, right + 1)` of a vertical
seam: every column of the band is replaced by the cross-fade of the
original canvas columns `left` and `right`. -/
def vBandWrite (src : ℕ → ℕ → ℚ) (left right : ℕ) (d : ℕ → ℕ → ℚ) : ℕ → ℕ → ℚ :=
  (rangeList left (right + 1 - left)).foldl
    (fun g px => writeCol g px (fun y =>
      (1 - bandAlpha left right px) * src y left + bandAlpha left right px * src y right)) d

/-- The inner loop `for py in range(top, bottom + 1)` of a horizontal
seam. -/
def hBandWrite (src : ℕ → ℕ → ℚ) (top bottom : ℕ) (d : ℕ → ℕ → ℚ) : ℕ → ℕ → ℚ :=
  (rangeList top (bottom + 1 - top)).foldl
    (fun g py => writeRow g py (fun x =>
      (1 - bandAlpha top bottom py) * src top x + bandAlpha top bottom py * src bottom x)) d

/-- The two numpy buffers of `_blend_seams`: the read-only input
`canvas` and the output copy `out`. -/
structure BlendState where
  src : ℕ → ℕ → ℚ
  dst : ℕ → ℕ → ℚ

/-- One iteration of `for col in range(1, cols)`: seam at
`x = col * tile_w`, skipped when `x >= w`, band
`[max(0, x - blend_px), min(w - 1, x + blend_px)]` (the lower clamp is
natural subtraction). -/
def vSeamStep (w tile_w blend_px : ℕ) (st : BlendState) (col : ℕ) : BlendState :=
  if w ≤ col * tile_w then st
  else { st with dst := vBandWrite st.src (col * tile_w - blend_px) (min (w - 1) (col * tile_w + blend_px)) st.dst }

/-- One iteration of `for row in range(1, rows)`. -/
def hSeamStep (h tile_h blend_px : ℕ) (st : BlendState) (row : ℕ) : BlendState :=
  if h ≤ row * tile_h then st
  else { st with dst := hBandWrite st.src (row * tile_h - blend_px) (min (h - 1) (row * tile_h + blend_px)) st.dst }

/-- The whole `_blend_seams` body: copy, vertical seams, horizontal
seams.  `h, w = canvas.shape`. -/
def blendSeamsRun (canvas : ℕ → ℕ → ℚ) (h w tile_w tile_h cols rows blend_px : ℕ) :
    BlendState :=
  (rangeList 1 (rows - 1)).foldl (hSeamStep h tile_h blend_px)
    ((rangeList 1 (cols - 1)).foldl (vSeamStep w tile_w blend_px)
      { src := canvas, dst := canvas })

/-- The buffer returned by `_blend_seams`. -/
def _blend_seams (canvas : ℕ → ℕ → ℚ) (h w tile_w tile_h cols rows blend_px : ℕ) :
    ℕ → ℕ → ℚ :=
  (blendSeamsRun canvas h w tile_w tile_h cols rows blend_px).dst

/-- A pixel value is "from the original canvas" when it is either the
untouched original entry or a cross-fade of two original entries of the
same row (vertical seam) or of the same column (horizontal seam). -/
def fromOriginal (canvas : ℕ → ℕ → ℚ) (y x : ℕ) (v : ℚ) : Prop :=
  v = canvas y x ∨
  (∃ l r a, v = (1 - a) * canvas y l + a * canvas y r) ∨
  (∃ t b a, v = (1 - a) * canvas t x + a * canvas b x)

/-- Strictly increasing ramp canvas used to instantiate the seam
theorems. -/
def rampCanvas : ℕ → ℕ → ℚ := fun _ x => (x : ℚ)

/-! ## Patch loading (`compose_canvas.py`, lines 88-203)

The loading loop reads, per placed patch, `meta.json`, the heightmap
EXR (v2 name, then v1 fallback), optional imagery and optional mask.
Each per-patch failure prints a skip message naming the patch and the
reason and `continue`s; missing imagery or an unreadable mask only
produce warnings and degrade the patch (no color / all-ones mask).
File-system and decoder outcomes are modelled as boolean fields of the
input record. -/

/-- The reasons for which the loading loop skips a patch. -/
inductive SkipReason where
  | metaMissing
  | sizeUnknown
  | heightmapMissing
  | exrReadError
deriving DecidableEq

/-- One entry of `project.json`'s patch list together with the outcome
of every external read the loading loop performs for it. -/
structure PatchSpec where
  patch_name : String
  canvas_x : ℤ
  canvas_y : ℤ
  scale_xy : ℚ
  scale_z : ℚ
  metaExists : Bool
  width_px : ℕ
  height_px : ℕ
  hmV2Exists : Bool
  hmV1Exists : Bool
  exrReadOk : Bool
  src_w : ℕ
  src_h : ℕ
  hmData : ℤ → ℤ → ℚ
  imgV2Exists : Bool
  imgV1Exists : Bool
  imgReadOk : Bool
  imgData : ℤ → ℤ → Fin 3 → ℚ
  maskExists : Bool
  maskReadOk : Bool
  maskData : ℤ → ℤ → ℚ

/-- A successfully loaded patch (one entry of the `loaded` list). -/
structure LoadedPatch where
  name : String
  cx : ℤ
  cy : ℤ
  eff_w : ℤ
  eff_h : ℤ
  scale_xy : ℚ
  scale_z : ℚ
  hm : ℤ → ℤ → ℚ
  img : Option (ℤ → ℤ → Fin 3 → ℚ)
  mask : ℤ → ℤ → ℚ

/-- The body of the loading loop for one patch: the four skip
conditions in source order (missing `meta.json`, zero declared
width/height, no heightmap under either name, EXR read failure), then
the successful record: `scale_z` applied when `|scale_z - 1| > 1e-6`,
effective extents `max(1, round(src * scale_xy))`, imagery kept only
when present and readable, mask defaulting to all-ones. -/
def loadPatch (p : PatchSpec) : Except (String × SkipReason) LoadedPatch :=
  if p.metaExists = false then .error (p.patch_name, .metaMissing)
  else if p.width_px = 0 ∨ p.height_px = 0 then .error (p.patch_name, .sizeUnknown)
  else if p.hmV2Exists = false ∧ p.hmV1Exists = false then
    .error (p.patch_name, .heightmapMissing)
  else if p.exrReadOk = false then .error (p.patch_name, .exrReadError)
  else
    .ok { name := p.patch_name
          cx := p.canvas_x
          cy := p.canvas_y
          eff_w := max 1 (pyRound ((p.src_w : ℚ) * p.scale_xy))
          eff_h := max 1 (pyRound ((p.src_h : ℚ) * p.scale_xy))
          scale_xy := p.scale_xy
          scale_z := p.scale_z
          hm := if 1 / 1000000 < |p.scale_z - 1| then
              fun y x => p.hmData y x * p.scale_z
            else p.hmData
          img := if (p.imgV2Exists = true ∨ p.imgV1Exists = true) ∧ p.imgReadOk = true then
              some p.imgData
            else none
          mask := if p.maskExists = true ∧ p.maskReadOk = true then p.maskData
            else fun _ _ => 1 }

/-- The `loaded` list: the skip conditions drop a patch and the loop
continues with the rest. -/
def loadAll (ps : List PatchSpec) : List LoadedPatch :=
  ps.filterMap (fun p => (loadPatch p).toOption)

/-- The fatal checks around the loading loop: no patches placed
(line 89) and no valid patches loaded (line 201) abort with
`sys.exit(1)`; otherwise compositing proceeds with the loaded list. -/
def composeRun (ps : List PatchSpec) : Except String (List LoadedPatch) :=
  if ps.isEmpty = true then .error "No patches placed on canvas."
  else if (loadAll ps).isEmpty = true then .error "No valid patches could be loaded."
  else .ok (loadAll ps)

/-- A patch spec for which every external read succeeds. -/
def wGoodSpec : PatchSpec :=
  { patch_name := "good", canvas_x := 0, canvas_y := 0, scale_xy := 1, scale_z := 1,
    metaExists := true, width_px := 4, height_px := 4,
    hmV2Exists := true, hmV1Exists := false, exrReadOk := true,
    src_w := 4, src_h := 4, hmData := fun _ _ => 2,
    imgV2Exists := false, imgV1Exists := false, imgReadOk := false,
    imgData := fun _ _ _ => 0,
    maskExists := false, maskReadOk := false, maskData := fun _ _ => 0 }

/-- A patch spec whose `meta.json` is missing. -/
def wBadSpec : PatchSpec := { wGoodSpec with patch_name := "bad", metaExists := false }

/-! ### Characterization of the auto layout scan -/

/-- Specification satisfied by the final accumulator of the auto layout
scan: rows match `ceil(n/cols)`, `cols ∈ [1, n]`, the squareness defect
is minimal over all candidates, and the chosen cols is the first
minimizer unless the initial candidate `(n, 1)` already ties it. -/
def gridResSpec (n : ℕ) (res : ℕ × ℕ × ℕ) : Prop :=
  res.2.1 = ceilDivTiles n res.1 ∧ 1 ≤ res.1 ∧ res.1 ≤ n ∧
  (∀ c, 1 ≤ c → c ≤ n → gridDiff n res.1 ≤ gridDiff n c) ∧
  ((∀ c, 1 ≤ c → c < res.1 → gridDiff n res.1 < gridDiff n c) ∨ res.1 = n)

/-- Loop invariant of the auto layout scan, with `s` the next candidate
column count to be examined (candidates `1 ≤ c < s` already seen). -/
def gridAccInv (n s : ℕ) (acc : ℕ × ℕ × ℕ) : Prop :=
  acc.2.1 = ceilDivTiles n acc.1 ∧ acc.2.2 = gridDiff n acc.1 ∧
  1 ≤ acc.1 ∧ acc.1 ≤ n ∧
  (∀ c, 1 ≤ c → c < s → acc.2.2 ≤ gridDiff n c) ∧
  ((∀ c, 1 ≤ c → c < s → c < acc.1 → gridDiff n acc.1 < gridDiff n c) ∨ acc.1 = n) ∧
  (acc.1 < s ∨ acc.1 = n)

lemma gridStep_inv (n s : ℕ) (acc : ℕ × ℕ × ℕ) (hs : 1 ≤ s) (hsn : s ≤ n)
    (hinv : gridAccInv n s acc) : gridAccInv n (s + 1) (gridStep n acc s) := by
  obtain ⟨hrows, hdiff, h1, h2, hmin, htie, hpos⟩ := hinv
  by_cases hlt : gridDiff n s < acc.2.2
  · simp only [gridStep, if_pos hlt]
    refine ⟨rfl, rfl, hs, hsn, ?_, ?_, ?_⟩
    · intro c hc1 hcs
      rcases Nat.lt_succ_iff_lt_or_eq.mp hcs with hcs | hcs
      · exact le_of_lt (lt_of_lt_of_le hlt (hdiff ▸ hmin c hc1 hcs))
      · exact hcs ▸ le_refl _
    · left
      intro c hc1 hcs hcacc
      exact lt_of_lt_of_le hlt (hdiff ▸ hmin c hc1 (lt_of_lt_of_le hcacc (by omega)))
    · left; omega
  · simp only [gridStep, if_neg hlt]
    refine ⟨hrows, hdiff, h1, h2, ?_, ?_, ?_⟩
    · intro c hc1 hcs
      rcases Nat.lt_succ_iff_lt_or_eq.mp hcs with hcs | hcs
      · exact hmin c hc1 hcs
      · exact hcs ▸ le_of_not_lt hlt
    · rcases hpos with hpos | hpos
      · rcases htie with htie | htie
        · left
          intro c hc1 hcs hcacc
          exact htie c hc1 (by omega) hcacc
        · right; exact htie
      · right; exact hpos
    · omega

lemma gridFold_inv (n : ℕ) :
    ∀ (k s : ℕ) (acc : ℕ × ℕ × ℕ), s + k = n + 1 → 1 ≤ s → gridAccInv n s acc →
      gridResSpec n ((rangeList s k).foldl (gridStep n) acc) := by
  intro k
  induction k with
  | zero =>
    intro s acc hsk hs hinv
    obtain ⟨hrows, hdiff, h1, h2, hmin, htie, hpos⟩ := hinv
    show gridResSpec n acc
    refine ⟨hrows, h1, h2, ?_, ?_⟩
    · intro c hc1 hcn
      exact hdiff ▸ hmin c hc1 (by omega)
    · rcases htie with htie | htie
      · left; intro c hc1 hcacc; exact htie c hc1 (by omega) hcacc
      · right; exact htie
  | succ k ih =>
    intro s acc hsk hs hinv
    show gridResSpec n ((rangeList (s + 1) k).foldl (gridStep n) (gridStep n acc s))
    exact ih (s + 1) (gridStep n acc s) (by omega) (by omega)
      (gridStep_inv n s acc hs (by omega) hinv)

lemma ceilDivTiles_self (n : ℕ) (hn : 1 ≤ n) : ceilDivTiles n n = 1 := by
  unfold ceilDivTiles
  have h : n + n - 1 = (n - 1) + n := by omega
  rw [h, Nat.add_div_right _ (by omega), Nat.div_eq_of_lt (by omega)]

lemma compute_grid_auto_spec (n : ℕ) (hn : 1 ≤ n) : gridResSpec n (autoGridFold n) := by
  apply gridFold_inv n n 1 (gridInit n) (by omega) (by omega)
  refine ⟨?_, ?_, hn, le_refl n, ?_, ?_, ?_⟩
  · show (1 : ℕ) = ceilDivTiles n n
    rw [ceilDivTiles_self n hn]
  · show ((n : ℤ) - 1).natAbs = gridDiff n n
    unfold gridDiff
    rw [ceilDivTiles_self n hn]
    norm_num
  · intro c hc1 hc; omega
  · right; rfl
  · right; rfl

lemma le_mul_ceilDivTiles (n c : ℕ) (hc : 1 ≤ c) : n ≤ c * ceilDivTiles n c := by
  unfold ceilDivTiles
  have h1 := Nat.div_add_mod (n + c - 1) c
  have h2 : (n + c - 1) % c < c := Nat.mod_lt _ (by omega)
  omega

lemma one_le_ceilDivTiles (n c : ℕ) (hn : 1 ≤ n) (hc : 1 ≤ c) : 1 ≤ ceilDivTiles n c := by
  unfold ceilDivTiles
  rw [Nat.one_le_div_iff (by omega)]
  omega

lemma grid_eq_auto (n : ℕ) : _compute_grid n Layout.grid = _compute_grid n Layout.auto := rfl

lemma pad_len {α : Type} (tiles : List α) (blank : α) (cells : ℕ) (h : tiles.length ≤ cells) :
    (padTiles tiles blank cells).length = cells := by
  simp [padTiles]
  omega

lemma cell_index_lt (row col rows cols : ℕ) (hr : row < rows) (hc : col < cols) :
    row * cols + col < cols * rows := by
  have h1 : row * cols + col < (row + 1) * cols := by rw [add_mul, one_mul]; omega
  have h2 : (row + 1) * cols ≤ rows * cols := Nat.mul_le_mul_right cols (by omega)
  have h3 : cols * rows = rows * cols := Nat.mul_comm _ _
  omega

lemma compute_grid_horizontal (n : ℕ) : _compute_grid n Layout.horizontal = (n, 1) := rfl

lemma compute_grid_vertical (n : ℕ) : _compute_grid n Layout.vertical = (1, n) := rfl

/-- C3 counterexample: for bounds (10000, 4000) and max_resolution 4096
the Resolution Governor of `compose_canvas.py` yields output height
`round(4000 · 0.4096) = round(1638.4) = 1638`, not 1639 as the claim
states. -/
theorem c3_governor_counterexample : out_dims 10000 4000 4096 ≠ (4096, 1639) := by
  norm_num [out_dims, out_scale, pyRound, Prod.ext_iff]

/-- C3 (amended): the Resolution Governor computes
`output_scale = min(1.0, max_resolution / max(width, height))` and
`output dims = max(1, round(dimension · output_scale))`; for bounds
(5000, 3000) with max_resolution 8192 it yields scale 1.0 and dims
(5000, 3000) exactly, and for bounds (10000, 4000) with max_resolution
4096 it yields scale 0.4096 and dims (4096, 1638). -/
theorem c3_governor_amended :
    out_scale 5000 3000 8192 = 1 ∧ out_dims 5000 3000 8192 = (5000, 3000) ∧
    out_scale 10000 4000 4096 = 4096 / 10000 ∧ out_dims 10000 4000 4096 = (4096, 1638) :=
  ⟨by norm_num [out_scale], by norm_num [out_dims, out_scale, pyRound, Prod.ext_iff],
   by norm_num [out_scale], by norm_num [out_dims, out_scale, pyRound, Prod.ext_iff]⟩

/-- C5 counterexample: the auto layout of `_compute_grid` for N = 6
does not return cols = 3, rows = 2; the ascending scan with strict
improvement keeps cols = 2 (diff 1, found first). -/
theorem c5_layout_counterexample : _compute_grid 6 Layout.auto ≠ (3, 2) := by decide

/-- C5 (amended): the auto layout yields cols = 2, rows = 3 for N = 6;
cols = 1, rows = 1 for N = 1; and cols = 3, rows = 3 for N = 7 (with
3·3 − 7 = 2 cells padded by blank tiles). -/
theorem c5_layout_amended :
    _compute_grid 6 Layout.auto = (2, 3) ∧ _compute_grid 1 Layout.auto = (1, 1) ∧
    _compute_grid 7 Layout.auto = (3, 3) ∧ 3 * 3 - 7 = 2 := by decide

/-- C6 counterexample: at N = 2, cols = 1 attains the minimal
squareness defect (equal to that of the returned cols), yet
`_compute_grid` returns the larger cols = 2, because the scan is
initialized with the candidate `(N, 1)` and only replaces it on strict
improvement.  So the returned cols is not always the smallest
minimizer. -/
theorem c6_auto_counterexample :
    gridDiff 2 1 = gridDiff 2 ((_compute_grid 2 Layout.auto).1) ∧
    (∀ c, c < 3 → 1 ≤ c → gridDiff 2 1 ≤ gridDiff 2 c) ∧
    (1 : ℕ) < (_compute_grid 2 Layout.auto).1 := by decide

/-- C6 (amended): for every N ≥ 1 the auto layout returns (cols, rows)
with rows = ceil(N/cols), cols ∈ [1, N] minimizing
|cols − ceil(N/cols)|; the returned cols is the smallest minimizer
(every strictly smaller candidate has strictly larger defect) unless
the initial candidate cols = N already ties the minimum, in which case
(N, 1) is returned (this happens at N = 2). -/
theorem c6_auto_amended (n : ℕ) (hn : 1 ≤ n) :
    (_compute_grid n Layout.auto).2 = ceilDivTiles n (_compute_grid n Layout.auto).1 ∧
    1 ≤ (_compute_grid n Layout.auto).1 ∧ (_compute_grid n Layout.auto).1 ≤ n ∧
    (∀ c, 1 ≤ c → c ≤ n → gridDiff n (_compute_grid n Layout.auto).1 ≤ gridDiff n c) ∧
    ((∀ c, 1 ≤ c → c < (_compute_grid n Layout.auto).1 →
        gridDiff n (_compute_grid n Layout.auto).1 < gridDiff n c) ∨
      (_compute_grid n Layout.auto).1 = n) := by
  obtain ⟨h1, h2, h3, h4, h5⟩ := compute_grid_auto_spec n hn
  exact ⟨h1, h2, h3, h4, h5⟩

/-- C6 witness: the amended characterization instantiated at N = 6. -/
theorem c6_auto_amended_witness :
    1 ≤ 6 ∧
    ((_compute_grid 6 Layout.auto).2 = ceilDivTiles 6 (_compute_grid 6 Layout.auto).1 ∧
    1 ≤ (_compute_grid 6 Layout.auto).1 ∧ (_compute_grid 6 Layout.auto).1 ≤ 6 ∧
    (∀ c, 1 ≤ c → c ≤ 6 → gridDiff 6 (_compute_grid 6 Layout.auto).1 ≤ gridDiff 6 c) ∧
    ((∀ c, 1 ≤ c → c < (_compute_grid 6 Layout.auto).1 →
        gridDiff 6 (_compute_grid 6 Layout.auto).1 < gridDiff 6 c) ∨
      (_compute_grid 6 Layout.auto).1 = 6)) :=
  ⟨by decide, c6_auto_amended 6 (by decide)⟩

/-- C9: for every N ≥ 1 and every layout policy, `_compute_grid`
returns cols ≥ 1 and rows ≥ 1 with cols·rows ≥ N, the blank-tile
padding brings the tile list to exactly cols·rows entries, and every
grid cell index `row·cols + col` stays inside the padded list, so the
canvas writer never reads past the tile list. -/
theorem c9_grid_covers (n : ℕ) (hn : 1 ≤ n) (layout : Layout) {α : Type} (tiles : List α)
    (blank : α) (hlen : tiles.length = n) :
    1 ≤ (_compute_grid n layout).1 ∧ 1 ≤ (_compute_grid n layout).2 ∧
    n ≤ (_compute_grid n layout).1 * (_compute_grid n layout).2 ∧
    (padTiles tiles blank ((_compute_grid n layout).1 * (_compute_grid n layout).2)).length =
      (_compute_grid n layout).1 * (_compute_grid n layout).2 ∧
    ∀ row col, row < (_compute_grid n layout).2 → col < (_compute_grid n layout).1 →
      row * (_compute_grid n layout).1 + col <
        (padTiles tiles blank ((_compute_grid n layout).1 * (_compute_grid n layout).2)).length := by
  have core : 1 ≤ (_compute_grid n layout).1 ∧ 1 ≤ (_compute_grid n layout).2 ∧
      n ≤ (_compute_grid n layout).1 * (_compute_grid n layout).2 := by
    cases layout with
    | horizontal =>
      rw [compute_grid_horizontal]
      exact ⟨hn, le_refl 1, by omega⟩
    | vertical =>
      rw [compute_grid_vertical]
      exact ⟨le_refl 1, hn, by omega⟩
    | auto =>
      obtain ⟨h1, h2, h3, _, _⟩ := compute_grid_auto_spec n hn
      refine ⟨h2, ?_, ?_⟩
      · show 1 ≤ (autoGridFold n).2.1
        rw [h1]
        exact one_le_ceilDivTiles n _ hn h2
      · show n ≤ (autoGridFold n).1 * (autoGridFold n).2.1
        rw [h1]
        exact le_mul_ceilDivTiles n _ h2
    | grid =>
      rw [grid_eq_auto]
      obtain ⟨h1, h2, h3, _, _⟩ := compute_grid_auto_spec n hn
      refine ⟨h2, ?_, ?_⟩
      · show 1 ≤ (autoGridFold n).2.1
        rw [h1]
        exact one_le_ceilDivTiles n _ hn h2
      · show n ≤ (autoGridFold n).1 * (autoGridFold n).2.1
        rw [h1]
        exact le_mul_ceilDivTiles n _ h2
  obtain ⟨h1, h2, h3⟩ := core
  have hpl := pad_len tiles blank ((_compute_grid n layout).1 * (_compute_grid n layout).2)
    (by omega)
  refine ⟨h1, h2, h3, hpl, ?_⟩
  intro row col hr hc
  rw [hpl]
  exact cell_index_lt row col _ _ hr hc

/-- C9 witness: the coverage property instantiated at N = 7 with the
auto layout and a list of 7 zero tiles. -/
theorem c9_grid_covers_witness :
    (1 ≤ 7 ∧ (List.replicate 7 (0 : ℚ)).length = 7) ∧
    (1 ≤ (_compute_grid 7 Layout.auto).1 ∧ 1 ≤ (_compute_grid 7 Layout.auto).2 ∧
    7 ≤ (_compute_grid 7 Layout.auto).1 * (_compute_grid 7 Layout.auto).2 ∧
    (padTiles (List.replicate 7 (0 : ℚ)) 0
        ((_compute_grid 7 Layout.auto).1 * (_compute_grid 7 Layout.auto).2)).length =
      (_compute_grid 7 Layout.auto).1 * (_compute_grid 7 Layout.auto).2 ∧
    ∀ row col, row < (_compute_grid 7 Layout.auto).2 → col < (_compute_grid 7 Layout.auto).1 →
      row * (_compute_grid 7 Layout.auto).1 + col <
        (padTiles (List.replicate 7 (0 : ℚ)) 0
          ((_compute_grid 7 Layout.auto).1 * (_compute_grid 7 Layout.auto).2)).length) :=
  ⟨⟨by decide, by simp⟩, c9_grid_covers 7 (by decide) Layout.auto (List.replicate 7 0) 0 (by simp)⟩

lemma applyPatch_in_region (out_w out_h : ℤ) (c : Canvas) (p : RPatch) (y x : ℤ)
    (hy0 : max 0 p.oy0 ≤ y) (hy1 : y < min out_h (p.oy0 + p.ph))
    (hx0 : max 0 p.ox0 ≤ x) (hx1 : x < min out_w (p.ox0 + p.pw)) :
    (applyPatch out_w out_h c p).hm y x =
      (p.hm (y - p.oy0) (x - p.ox0) * p.mask (y - p.oy0) (x - p.ox0) +
          c.hm y x * c.alpha y x) /
        (if c.alpha y x + p.mask (y - p.oy0) (x - p.ox0) = 0 then 1 / 1000000
         else c.alpha y x + p.mask (y - p.oy0) (x - p.ox0)) ∧
    (applyPatch out_w out_h c p).alpha y x =
      clip01 (c.alpha y x + p.mask (y - p.oy0) (x - p.ox0)) ∧
    ∀ im, p.img = some im → ∀ ch,
      (applyPatch out_w out_h c p).img y x ch =
        (im (y - p.oy0) (x - p.ox0) ch * p.mask (y - p.oy0) (x - p.ox0) +
            c.img y x ch * clip01 (c.alpha y x + p.mask (y - p.oy0) (x - p.ox0))) /
          (if c.alpha y x + p.mask (y - p.oy0) (x - p.ox0) = 0 then 1 / 1000000
           else c.alpha y x + p.mask (y - p.oy0) (x - p.ox0)) := by
  have hskip : ¬(min out_w (p.ox0 + p.pw) ≤ max 0 p.ox0 ∨
      min out_h (p.oy0 + p.ph) ≤ max 0 p.oy0) :=
    not_or.mpr ⟨not_le.mpr (lt_of_le_of_lt hx0 hx1), not_le.mpr (lt_of_le_of_lt hy0 hy1)⟩
  have hreg : max 0 p.oy0 ≤ y ∧ y < min out_h (p.oy0 + p.ph) ∧
      max 0 p.ox0 ≤ x ∧ x < min out_w (p.ox0 + p.pw) := ⟨hy0, hy1, hx0, hx1⟩
  unfold applyPatch
  rw [if_neg hskip]
  refine ⟨?_, ?_, ?_⟩
  · dsimp only
    rw [if_pos hreg]
  · dsimp only
    rw [if_pos hreg]
  · intro im him ch
    dsimp only
    simp only [him]
    rw [if_pos hreg]

lemma composite_take_succ (out_w out_h : ℤ) (ps : List RPatch) (k : ℕ) (hk : k < ps.length) :
    composite out_w out_h (ps.take (k + 1)) =
      applyPatch out_w out_h (composite out_w out_h (ps.take k)) ps[k] := by
  unfold composite
  rw [List.take_succ, List.getElem?_eq_getElem hk]
  rw [Option.toList_some, List.foldl_append]
  rfl

/-- C1 (amended): for every patch applied in input order (the k-th
patch of the list, applied to the state after the first k) and for
every pixel of its clipped sub-region, the elevation accumulator is
updated to `(new_value·new_alpha + old_elevation·old_alpha) / denom`
where `denom = old_alpha + new_alpha` with zero entries replaced by
the epsilon 1e-6, and `alpha_accum` is updated to
`clip(old_alpha + new_alpha, 0, 1)`.  The color channels do NOT use
the same formula: because `old_alpha` is a numpy view that line 267
has already overwritten, each color channel is updated to
`(new_color·new_alpha + old_color·clip(old_alpha+new_alpha,0,1))
/ denom` — the existing color is weighted by the freshly clipped
alpha, while `denom` keeps the pre-update sum. -/
theorem c1_blend_formula (out_w out_h : ℤ) (ps : List RPatch) (k : ℕ) (hk : k < ps.length)
    (y x : ℤ)
    (hy0 : max 0 (ps[k]).oy0 ≤ y) (hy1 : y < min out_h ((ps[k]).oy0 + (ps[k]).ph))
    (hx0 : max 0 (ps[k]).ox0 ≤ x) (hx1 : x < min out_w ((ps[k]).ox0 + (ps[k]).pw)) :
    (composite out_w out_h (ps.take (k + 1))).hm y x =
      ((ps[k]).hm (y - (ps[k]).oy0) (x - (ps[k]).ox0) *
          (ps[k]).mask (y - (ps[k]).oy0) (x - (ps[k]).ox0) +
        (composite out_w out_h (ps.take k)).hm y x *
          (composite out_w out_h (ps.take k)).alpha y x) /
        (if (composite out_w out_h (ps.take k)).alpha y x +
            (ps[k]).mask (y - (ps[k]).oy0) (x - (ps[k]).ox0) = 0 then 1 / 1000000
         else (composite out_w out_h (ps.take k)).alpha y x +
            (ps[k]).mask (y - (ps[k]).oy0) (x - (ps[k]).ox0)) ∧
    (composite out_w out_h (ps.take (k + 1))).alpha y x =
      clip01 ((composite out_w out_h (ps.take k)).alpha y x +
        (ps[k]).mask (y - (ps[k]).oy0) (x - (ps[k]).ox0)) ∧
    ∀ im, (ps[k]).img = some im → ∀ ch,
      (composite out_w out_h (ps.take (k + 1))).img y x ch =
        (im (y - (ps[k]).oy0) (x - (ps[k]).ox0) ch *
            (ps[k]).mask (y - (ps[k]).oy0) (x - (ps[k]).ox0) +
          (composite out_w out_h (ps.take k)).img y x ch *
            clip01 ((composite out_w out_h (ps.take k)).alpha y x +
              (ps[k]).mask (y - (ps[k]).oy0) (x - (ps[k]).ox0))) /
          (if (composite out_w out_h (ps.take k)).alpha y x +
              (ps[k]).mask (y - (ps[k]).oy0) (x - (ps[k]).ox0) = 0 then 1 / 1000000
           else (composite out_w out_h (ps.take k)).alpha y x +
              (ps[k]).mask (y - (ps[k]).oy0) (x - (ps[k]).ox0)) := by
  rw [composite_take_succ out_w out_h ps k hk]
  exact applyPatch_in_region out_w out_h (composite out_w out_h (ps.take k)) ps[k] y x
    hy0 hy1 hx0 hx1

lemma alpha_bounds_foldl (out_w out_h : ℤ) (l : List RPatch) :
    ∀ c : Canvas, (∀ y x, 0 ≤ c.alpha y x ∧ c.alpha y x ≤ 1) →
      ∀ y x, 0 ≤ (l.foldl (applyPatch out_w out_h) c).alpha y x ∧
        (l.foldl (applyPatch out_w out_h) c).alpha y x ≤ 1 := by
  induction l with
  | nil => intro c hc; exact hc
  | cons p l ih =>
    intro c hc
    apply ih
    intro y x
    unfold applyPatch
    by_cases hskip : min out_w (p.ox0 + p.pw) ≤ max 0 p.ox0 ∨
        min out_h (p.oy0 + p.ph) ≤ max 0 p.oy0
    · rw [if_pos hskip]
      exact hc y x
    · rw [if_neg hskip]
      dsimp only
      by_cases hreg : max 0 p.oy0 ≤ y ∧ y < min out_h (p.oy0 + p.ph) ∧
          max 0 p.ox0 ≤ x ∧ x < min out_w (p.ox0 + p.pw)
      · rw [if_pos hreg]
        unfold clip01
        constructor
        · exact le_min zero_le_one (le_max_left _ _)
        · exact min_le_left _ _
      · rw [if_neg hreg]
        exact hc y x

/-- C2: `alpha_accum` starts at zero, and for every patch list and
every prefix of patch applications (every intermediate state), every
pixel of `alpha_accum` lies in [0, 1]. -/
theorem c2_alpha_invariant (out_w out_h : ℤ) (ps : List RPatch) (n : ℕ) (y x : ℤ) :
    initCanvas.alpha y x = 0 ∧
    0 ≤ (composite out_w out_h (ps.take n)).alpha y x ∧
    (composite out_w out_h (ps.take n)).alpha y x ≤ 1 := by
  refine ⟨rfl, ?_, ?_⟩
  · exact (alpha_bounds_foldl out_w out_h (ps.take n) initCanvas
      (fun y x => ⟨le_refl 0, zero_le_one⟩) y x).1
  · exact (alpha_bounds_foldl out_w out_h (ps.take n) initCanvas
      (fun y x => ⟨le_refl 0, zero_le_one⟩) y x).2

/-- C4: when two fully-opaque patches (mask identically 1) cover the
exact same output region, the composited elevation (and color, when
both patches carry it) equals the 50/50 average of the two patches'
resampled values — blend, not overwrite by the later patch. -/
theorem c4_opaque_overlap_halves (out_w out_h : ℤ) (p1 p2 : RPatch)
    (hm1 : ∀ i j, p1.mask i j = 1) (hm2 : ∀ i j, p2.mask i j = 1)
    (hgx : p2.ox0 = p1.ox0) (hgy : p2.oy0 = p1.oy0)
    (hgw : p2.pw = p1.pw) (hgh : p2.ph = p1.ph)
    (y x : ℤ)
    (hy0 : max 0 p1.oy0 ≤ y) (hy1 : y < min out_h (p1.oy0 + p1.ph))
    (hx0 : max 0 p1.ox0 ≤ x) (hx1 : x < min out_w (p1.ox0 + p1.pw)) :
    (composite out_w out_h [p1, p2]).hm y x =
      (p1.hm (y - p1.oy0) (x - p1.ox0) + p2.hm (y - p1.oy0) (x - p1.ox0)) / 2 ∧
    ∀ im1 im2, p1.img = some im1 → p2.img = some im2 → ∀ ch,
      (composite out_w out_h [p1, p2]).img y x ch =
        (im1 (y - p1.oy0) (x - p1.ox0) ch + im2 (y - p1.oy0) (x - p1.ox0) ch) / 2 := by
  have hcomp : composite out_w out_h [p1, p2] =
      applyPatch out_w out_h (applyPatch out_w out_h initCanvas p1) p2 := rfl
  obtain ⟨h1hm, h1al, h1im⟩ :=
    applyPatch_in_region out_w out_h initCanvas p1 y x hy0 hy1 hx0 hx1
  obtain ⟨h2hm, h2al, h2im⟩ :=
    applyPatch_in_region out_w out_h (applyPatch out_w out_h initCanvas p1) p2 y x
      (by rw [hgy]; exact hy0) (by rw [hgy, hgh]; exact hy1)
      (by rw [hgx]; exact hx0) (by rw [hgx, hgw]; exact hx1)
  have hinit_alpha : initCanvas.alpha y x = 0 := rfl
  have hinit_hm : initCanvas.hm y x = 0 := rfl
  have c1alpha : (applyPatch out_w out_h initCanvas p1).alpha y x = 1 := by
    rw [h1al, hinit_alpha, hm1]
    norm_num [clip01]
  have c1hm : (applyPatch out_w out_h initCanvas p1).hm y x =
      p1.hm (y - p1.oy0) (x - p1.ox0) := by
    rw [h1hm, hinit_alpha, hinit_hm, hm1]
    norm_num
  constructor
  · rw [hcomp, h2hm, c1alpha, c1hm, hm2, hgx, hgy]
    norm_num
    ring
  · intro im1 im2 him1 him2 ch
    have c1img : (applyPatch out_w out_h initCanvas p1).img y x ch =
        im1 (y - p1.oy0) (x - p1.ox0) ch := by
      rw [h1im im1 him1 ch, hinit_alpha, hm1]
      show (im1 (y - p1.oy0) (x - p1.ox0) ch * 1 + 0 * clip01 (0 + 1)) /
        (if (0 : ℚ) + 1 = 0 then 1 / 1000000 else 0 + 1) =
        im1 (y - p1.oy0) (x - p1.ox0) ch
      norm_num
    rw [hcomp, h2im im2 him2 ch, c1alpha, c1img, hm2, hgx, hgy]
    have hclip2 : clip01 ((1 : ℚ) + 1) = 1 := by
      norm_num [clip01, min_def, max_def]
    rw [hclip2]
    norm_num
    ring

/-- C1 witness: the blend formula instantiated on a concrete 1×1
canvas with the single patch `wpatchA`. -/
theorem c1_blend_formula_witness :
    ((0 : ℕ) < [wpatchA].length ∧ max 0 wpatchA.oy0 ≤ (0 : ℤ) ∧
      (0 : ℤ) < min 1 (wpatchA.oy0 + wpatchA.ph) ∧ max 0 wpatchA.ox0 ≤ (0 : ℤ) ∧
      (0 : ℤ) < min 1 (wpatchA.ox0 + wpatchA.pw)) ∧
    ((composite 1 1 ([wpatchA].take 1)).hm 0 0 =
      (wpatchA.hm 0 0 * wpatchA.mask 0 0 +
        (composite 1 1 ([wpatchA].take 0)).hm 0 0 *
          (composite 1 1 ([wpatchA].take 0)).alpha 0 0) /
        (if (composite 1 1 ([wpatchA].take 0)).alpha 0 0 + wpatchA.mask 0 0 = 0 then 1 / 1000000
         else (composite 1 1 ([wpatchA].take 0)).alpha 0 0 + wpatchA.mask 0 0) ∧
    (composite 1 1 ([wpatchA].take 1)).alpha 0 0 =
      clip01 ((composite 1 1 ([wpatchA].take 0)).alpha 0 0 + wpatchA.mask 0 0) ∧
    ∀ im, wpatchA.img = some im → ∀ ch,
      (composite 1 1 ([wpatchA].take 1)).img 0 0 ch =
        (im 0 0 ch * wpatchA.mask 0 0 +
          (composite 1 1 ([wpatchA].take 0)).img 0 0 ch *
            clip01 ((composite 1 1 ([wpatchA].take 0)).alpha 0 0 + wpatchA.mask 0 0)) /
          (if (composite 1 1 ([wpatchA].take 0)).alpha 0 0 + wpatchA.mask 0 0 = 0 then 1 / 1000000
           else (composite 1 1 ([wpatchA].take 0)).alpha 0 0 + wpatchA.mask 0 0)) :=
  ⟨⟨by decide, by decide, by decide, by decide, by decide⟩,
   c1_blend_formula 1 1 [wpatchA] 0 (by decide) 0 0 (by decide) (by decide) (by decide) (by decide)⟩

/-- C4 witness: two concrete fully-opaque 1×1 patches with elevations
3 and 5 blend to 4 = (3+5)/2. -/
theorem c4_opaque_overlap_halves_witness :
    ((∀ i j : ℤ, wpatchA.mask i j = 1) ∧ (∀ i j : ℤ, wpatchB.mask i j = 1) ∧
      wpatchB.ox0 = wpatchA.ox0 ∧ wpatchB.oy0 = wpatchA.oy0 ∧
      wpatchB.pw = wpatchA.pw ∧ wpatchB.ph = wpatchA.ph ∧
      max 0 wpatchA.oy0 ≤ (0 : ℤ) ∧ (0 : ℤ) < min 1 (wpatchA.oy0 + wpatchA.ph) ∧
      max 0 wpatchA.ox0 ≤ (0 : ℤ) ∧ (0 : ℤ) < min 1 (wpatchA.ox0 + wpatchA.pw)) ∧
    ((composite 1 1 [wpatchA, wpatchB]).hm 0 0 = (wpatchA.hm 0 0 + wpatchB.hm 0 0) / 2 ∧
    ∀ im1 im2, wpatchA.img = some im1 → wpatchB.img = some im2 → ∀ ch,
      (composite 1 1 [wpatchA, wpatchB]).img 0 0 ch = (im1 0 0 ch + im2 0 0 ch) / 2) :=
  ⟨⟨fun i j => rfl, fun i j => rfl, rfl, rfl, rfl, rfl,
    by decide, by decide, by decide, by decide⟩,
   c4_opaque_overlap_halves 1 1 wpatchA wpatchB (fun i j => rfl) (fun i j => rfl)
     rfl rfl rfl rfl 0 0 (by decide) (by decide) (by decide) (by decide)⟩

lemma writeColFold_cases (src : ℕ → ℕ → ℚ) (l r : ℕ) (L : List ℕ) :
    ∀ (d : ℕ → ℕ → ℚ) (y x : ℕ),
      (L.foldl (fun g px => writeCol g px (fun y' =>
          (1 - bandAlpha l r px) * src y' l + bandAlpha l r px * src y' r)) d) y x = d y x ∨
      ∃ a : ℚ,
        (L.foldl (fun g px => writeCol g px (fun y' =>
          (1 - bandAlpha l r px) * src y' l + bandAlpha l r px * src y' r)) d) y x =
          (1 - a) * src y l + a * src y r := by
  induction L with
  | nil => intro d y x; left; rfl
  | cons px L ih =>
    intro d y x
    rw [List.foldl_cons]
    rcases ih (writeCol d px (fun y' =>
        (1 - bandAlpha l r px) * src y' l + bandAlpha l r px * src y' r)) y x with hc | hc
    · rw [hc]
      unfold writeCol
      by_cases hx : x = px
      · right
        exact ⟨bandAlpha l r px, by rw [if_pos hx]⟩
      · left
        rw [if_neg hx]
    · right
      exact hc

lemma writeRowFold_cases (src : ℕ → ℕ → ℚ) (t b : ℕ) (L : List ℕ) :
    ∀ (d : ℕ → ℕ → ℚ) (y x : ℕ),
      (L.foldl (fun g py => writeRow g py (fun x' =>
          (1 - bandAlpha t b py) * src t x' + bandAlpha t b py * src b x')) d) y x = d y x ∨
      ∃ a : ℚ,
        (L.foldl (fun g py => writeRow g py (fun x' =>
          (1 - bandAlpha t b py) * src t x' + bandAlpha t b py * src b x')) d) y x =
          (1 - a) * src t x + a * src b x := by
  induction L with
  | nil => intro d y x; left; rfl
  | cons py L ih =>
    intro d y x
    rw [List.foldl_cons]
    rcases ih (writeRow d py (fun x' =>
        (1 - bandAlpha t b py) * src t x' + bandAlpha t b py * src b x')) y x with hc | hc
    · rw [hc]
      unfold writeRow
      by_cases hy : y = py
      · right
        exact ⟨bandAlpha t b py, by rw [if_pos hy]⟩
      · left
        rw [if_neg hy]
    · right
      exact hc

lemma foldl_state_inv {β : Type} (P : BlendState → Prop) (step : BlendState → β → BlendState)
    (hstep : ∀ st b, P st → P (step st b)) :
    ∀ (L : List β) (st : BlendState), P st → P (L.foldl step st) := by
  intro L
  induction L with
  | nil => intro st h; exact h
  | cons b L ih =>
    intro st h
    rw [List.foldl_cons]
    exact ih (step st b) (hstep st b h)

/-- C10: `_blend_seams` never mutates its input: the canvas buffer read
by every blend is the unchanged original, and every pixel of the
returned fresh buffer is either the original pixel or a cross-fade of
two original band-edge entries — never of partially blended data. -/
theorem c10_blend_seams_pure (canvas : ℕ → ℕ → ℚ)
    (h w tile_w tile_h cols rows blend_px : ℕ) :
    (blendSeamsRun canvas h w tile_w tile_h cols rows blend_px).src = canvas ∧
    ∀ y x, fromOriginal canvas y x
      (_blend_seams canvas h w tile_w tile_h cols rows blend_px y x) := by
  have key : (blendSeamsRun canvas h w tile_w tile_h cols rows blend_px).src = canvas ∧
      ∀ y x, fromOriginal canvas y x
        ((blendSeamsRun canvas h w tile_w tile_h cols rows blend_px).dst y x) := by
    unfold blendSeamsRun
    apply foldl_state_inv
      (fun st => st.src = canvas ∧ ∀ y x, fromOriginal canvas y x (st.dst y x))
    · intro st row hst
      obtain ⟨hsrc, hdst⟩ := hst
      unfold hSeamStep
      by_cases hskip : h ≤ row * tile_h
      · rw [if_pos hskip]; exact ⟨hsrc, hdst⟩
      · rw [if_neg hskip]
        refine ⟨hsrc, ?_⟩
        intro y x
        show fromOriginal canvas y x (hBandWrite st.src (row * tile_h - blend_px) (min (h - 1) (row * tile_h + blend_px)) st.dst y x)
        unfold hBandWrite
        rcases writeRowFold_cases st.src (row * tile_h - blend_px)
            (min (h - 1) (row * tile_h + blend_px)) _ st.dst y x with hc | ⟨a, hc⟩
        · rw [hc]; exact hdst y x
        · rw [hc, hsrc]
          right; right
          exact ⟨_, _, a, rfl⟩
    · apply foldl_state_inv
        (fun st => st.src = canvas ∧ ∀ y x, fromOriginal canvas y x (st.dst y x))
      · intro st col hst
        obtain ⟨hsrc, hdst⟩ := hst
        unfold vSeamStep
        by_cases hskip : w ≤ col * tile_w
        · rw [if_pos hskip]; exact ⟨hsrc, hdst⟩
        · rw [if_neg hskip]
          refine ⟨hsrc, ?_⟩
          intro y x
          show fromOriginal canvas y x (vBandWrite st.src (col * tile_w - blend_px) (min (w - 1) (col * tile_w + blend_px)) st.dst y x)
          unfold vBandWrite
          rcases writeColFold_cases st.src (col * tile_w - blend_px)
              (min (w - 1) (col * tile_w + blend_px)) _ st.dst y x with hc | ⟨a, hc⟩
          · rw [hc]; exact hdst y x
          · rw [hc, hsrc]
            right; left
            exact ⟨_, _, a, rfl⟩
      · exact ⟨rfl, fun y x => Or.inl rfl⟩
  exact ⟨key.1, key.2⟩

lemma blend_seams_1024 (canvas : ℕ → ℕ → ℚ) (h : ℕ) :
    _blend_seams canvas h 1024 512 h 2 1 4 = vBandWrite canvas 508 516 canvas := rfl

lemma vBand_concrete_eval (src d : ℕ → ℕ → ℚ) (y p : ℕ) :
    vBandWrite src 508 516 d y p =
      if 508 ≤ p ∧ p ≤ 516 then
        (1 - ((p - 508 : ℕ) : ℚ) / 8) * src y 508 + (((p - 508 : ℕ) : ℚ) / 8) * src y 516
      else d y p := by
  have hl : rangeList 508 (516 + 1 - 508) = [508, 509, 510, 511, 512, 513, 514, 515, 516] := rfl
  unfold vBandWrite
  rw [hl]
  simp only [List.foldl_cons, List.foldl_nil]
  by_cases hp : 508 ≤ p ∧ p ≤ 516
  · rw [if_pos hp]
    obtain ⟨h1, h2⟩ := hp
    interval_cases p <;> norm_num [writeCol, bandAlpha]
  · rw [if_neg hp]
    simp only [writeCol]
    repeat rw [if_neg (show p ≠ _ by omega)]

/-- C7: with blend_px = 4 and a single internal vertical seam at
x = 512 (two 512-wide tiles, one row, canvas width 1024), the blended
value at every column p of the band 508..516 is the linear cross-fade
`(1 − α)·canvas[:,508] + α·canvas[:,516]` with `α = (p − 508)/8`, every
pixel outside the band is unchanged, and along the band the values ramp
monotonically from the pre-blend value at column 508 to the pre-blend
value at column 516. -/
theorem c7_seam_ramp (canvas : ℕ → ℕ → ℚ) (h y p : ℕ) :
    (508 ≤ p → p ≤ 516 →
      _blend_seams canvas h 1024 512 h 2 1 4 y p =
        (1 - ((p - 508 : ℕ) : ℚ) / 8) * canvas y 508 +
          (((p - 508 : ℕ) : ℚ) / 8) * canvas y 516) ∧
    (p < 508 ∨ 516 < p → _blend_seams canvas h 1024 512 h 2 1 4 y p = canvas y p) ∧
    (∀ q, 508 ≤ p → p ≤ q → q ≤ 516 → canvas y 508 ≤ canvas y 516 →
      _blend_seams canvas h 1024 512 h 2 1 4 y p ≤ _blend_seams canvas h 1024 512 h 2 1 4 y q) ∧
    (∀ q, 508 ≤ p → p ≤ q → q ≤ 516 → canvas y 516 ≤ canvas y 508 →
      _blend_seams canvas h 1024 512 h 2 1 4 y q ≤ _blend_seams canvas h 1024 512 h 2 1 4 y p) := by
  have heval : ∀ p' : ℕ, _blend_seams canvas h 1024 512 h 2 1 4 y p' =
      if 508 ≤ p' ∧ p' ≤ 516 then
        (1 - ((p' - 508 : ℕ) : ℚ) / 8) * canvas y 508 + (((p' - 508 : ℕ) : ℚ) / 8) * canvas y 516
      else canvas y p' := by
    intro p'
    rw [blend_seams_1024]
    exact vBand_concrete_eval canvas canvas y p'
  refine ⟨?_, ?_, ?_, ?_⟩
  · intro h1 h2
    rw [heval p, if_pos ⟨h1, h2⟩]
  · intro hout
    rw [heval p, if_neg (by omega)]
  · intro q h1 h2 h3 hc
    rw [heval p, heval q, if_pos ⟨h1, by omega⟩, if_pos ⟨by omega, h3⟩]
    have hle : ((p - 508 : ℕ) : ℚ) / 8 ≤ ((q - 508 : ℕ) : ℚ) / 8 := by
      have hcast : ((p - 508 : ℕ) : ℚ) ≤ ((q - 508 : ℕ) : ℚ) :=
        Nat.cast_le.mpr (Nat.sub_le_sub_right h2 508)
      linarith
    nlinarith [mul_nonneg (sub_nonneg.mpr hle) (sub_nonneg.mpr hc)]
  · intro q h1 h2 h3 hc
    rw [heval p, heval q, if_pos (⟨by omega, h3⟩ : 508 ≤ q ∧ q ≤ 516),
      if_pos (⟨h1, by omega⟩ : 508 ≤ p ∧ p ≤ 516)]
    have hle : ((p - 508 : ℕ) : ℚ) / 8 ≤ ((q - 508 : ℕ) : ℚ) / 8 := by
      have hcast : ((p - 508 : ℕ) : ℚ) ≤ ((q - 508 : ℕ) : ℚ) :=
        Nat.cast_le.mpr (Nat.sub_le_sub_right h2 508)
      linarith
    nlinarith [mul_nonneg (sub_nonneg.mpr hle) (sub_nonneg.mpr hc)]

/-- C7 witness: the ramp formula at the seam center p = 512 on the
strictly increasing `rampCanvas`. -/
theorem c7_seam_ramp_witness :
    ((508 : ℕ) ≤ 512 ∧ (512 : ℕ) ≤ 516) ∧
    _blend_seams rampCanvas 1 1024 512 1 2 1 4 0 512 =
      (1 - ((512 - 508 : ℕ) : ℚ) / 8) * rampCanvas 0 508 +
        (((512 - 508 : ℕ) : ℚ) / 8) * rampCanvas 0 516 :=
  ⟨⟨by decide, by decide⟩, (c7_seam_ramp rampCanvas 1 0 512).1 (by decide) (by decide)⟩

lemma toOption_none_iff {ε α : Type} (x : Except ε α) :
    x.toOption = none ↔ ∃ e, x = Except.error e := by
  cases x <;> simp [Except.toOption]

/-- C8: the compositing run fails fatally if and only if the supplied
patch list is empty or every patch fails to load; a per-patch error
only removes that patch from the loaded list (the run continues with
the remaining patches, each skip reported with the patch name and
reason); and a patch fails to load exactly for the four per-patch data
errors (missing metadata, zero declared width/height, missing
heightmap, unreadable EXR buffer). -/
theorem c8_error_policy (ps : List PatchSpec) :
    ((∃ e, composeRun ps = Except.error e) ↔
      ps = [] ∨ ∀ p ∈ ps, ∃ r, loadPatch p = Except.error r) ∧
    (∀ pre post p r, loadPatch p = Except.error r →
      loadAll (pre ++ p :: post) = loadAll (pre ++ post)) ∧
    (∀ p, (∃ r, loadPatch p = Except.error r) ↔
      (p.metaExists = false ∨ p.width_px = 0 ∨ p.height_px = 0 ∨
        (p.hmV2Exists = false ∧ p.hmV1Exists = false) ∨ p.exrReadOk = false)) := by
  refine ⟨?_, ?_, ?_⟩
  · unfold composeRun
    by_cases hps : ps.isEmpty = true
    · rw [if_pos hps]
      simp only [List.isEmpty_iff] at hps
      constructor
      · intro _; left; exact hps
      · intro _; exact ⟨_, rfl⟩
    · rw [if_neg hps]
      simp only [List.isEmpty_iff] at hps
      by_cases hl : (loadAll ps).isEmpty = true
      · rw [if_pos hl]
        simp only [List.isEmpty_iff, loadAll, List.filterMap_eq_nil_iff] at hl
        constructor
        · intro _
          right
          intro p hp
          exact (toOption_none_iff (loadPatch p)).mp (hl p hp)
        · intro _; exact ⟨_, rfl⟩
      · rw [if_neg hl]
        simp only [List.isEmpty_iff, loadAll, List.filterMap_eq_nil_iff] at hl
        constructor
        · intro ⟨e, he⟩; exact absurd he (by simp)
        · intro hcases
          rcases hcases with hcases | hcases
          · exact absurd hcases hps
          · exact absurd (fun p hp => (toOption_none_iff (loadPatch p)).mpr (hcases p hp)) hl
  · intro pre post p r h
    simp [loadAll, List.filterMap_append, List.filterMap_cons, h, Except.toOption]
  · intro p
    unfold loadPatch
    split_ifs with h1 h2 h3 h4
    all_goals simp_all
    all_goals tauto

/-- C8 witness: a patch with missing metadata is skipped while the run
continues with the remaining good patch. -/
theorem c8_error_policy_witness :
    loadPatch wBadSpec = Except.error ("bad", SkipReason.metaMissing) ∧
    loadAll ([wGoodSpec] ++ wBadSpec :: []) = loadAll ([wGoodSpec] ++ []) :=
  ⟨rfl, (c8_error_policy [wGoodSpec, wBadSpec]).2.1 [wGoodSpec] []
    wBadSpec ("bad", SkipReason.metaMissing) rfl⟩


/-- C1 counterexample: the color channels are NOT updated by the same
formula as elevation.  Two half-opacity patches (masks 0.5) with
colors 8 and 16 over the same pixel: after the first patch the canvas
holds color 8 with alpha 0.5; the second imagery blend weights the
existing color by the freshly clipped alpha `clip(0.5+0.5,0,1) = 1`
(because `old_alpha` is a view already overwritten by line 267),
giving `(16·0.5 + 8·1)/1 = 16`, whereas the claimed elevation formula
with the pre-update alpha would give `(16·0.5 + 8·0.5)/1 = 12`. -/
theorem c1_color_counterexample :
    (composite 1 1 [wpatchC]).alpha 0 0 = 1 / 2 ∧
    (composite 1 1 [wpatchC]).img 0 0 0 = 8 ∧
    (composite 1 1 [wpatchC, wpatchD]).img 0 0 0 = 16 ∧
    (composite 1 1 [wpatchC, wpatchD]).img 0 0 0 ≠
      (16 * (1 / 2) + (composite 1 1 [wpatchC]).img 0 0 0 *
          (composite 1 1 [wpatchC]).alpha 0 0) /
        (if (composite 1 1 [wpatchC]).alpha 0 0 + (1 / 2 : ℚ) = 0 then 1 / 1000000
         else (composite 1 1 [wpatchC]).alpha 0 0 + (1 / 2 : ℚ)) := by
  have hc1 : composite 1 1 [wpatchC] = applyPatch 1 1 initCanvas wpatchC := rfl
  have hc2 : composite 1 1 [wpatchC, wpatchD] =
      applyPatch 1 1 (applyPatch 1 1 initCanvas wpatchC) wpatchD := rfl
  obtain ⟨h1hm, h1al, h1im⟩ := applyPatch_in_region 1 1 initCanvas wpatchC 0 0
    (by decide) (by decide) (by decide) (by decide)
  obtain ⟨h2hm, h2al, h2im⟩ := applyPatch_in_region 1 1
    (applyPatch 1 1 initCanvas wpatchC) wpatchD 0 0
    (by decide) (by decide) (by decide) (by decide)
  have halphaA : (applyPatch 1 1 initCanvas wpatchC).alpha 0 0 = 1 / 2 := by
    rw [h1al]
    norm_num [clip01, min_def, max_def, initCanvas, wpatchC]
  have himgA : (applyPatch 1 1 initCanvas wpatchC).img 0 0 0 = 8 := by
    rw [h1im (fun _ _ _ => 8) rfl 0]
    norm_num [clip01, min_def, max_def, initCanvas, wpatchC]
  have himgB : (applyPatch 1 1 (applyPatch 1 1 initCanvas wpatchC) wpatchD).img 0 0 0 = 16 := by
    rw [h2im (fun _ _ _ => 16) rfl 0]
    rw [himgA, halphaA]
    norm_num [clip01, min_def, max_def, wpatchD]
  refine ⟨by rw [hc1]; exact halphaA, by rw [hc1]; exact himgA, by rw [hc2]; exact himgB, ?_⟩
  rw [hc1, hc2, himgB, himgA, halphaA]
  rw [if_neg (by norm_num)]
  norm_num

end TerrainMapFetcher
